import Mathlib

/-!
A shallow embedding of `src/costAnalysis.js` from pa-bru/graphql-cost-analysis.

Modelling conventions:
* JS numbers are modelled as `Int` (the analyzer only ever adds, multiplies,
  compares and clamps argument values and complexities; no claim involves
  fractional values).  `NaN` only ever reaches a truthiness test or a
  `|| 0` fallback in the source, so values that coerce to `NaN` are
  modelled as `0`, which is falsy exactly like `NaN`.
* JS objects used as string-keyed maps are association lists
  `List (String × α)`; property lookup is `alist` (first match wins; the
  maps the analyzer builds have distinct keys).
* `selectn(path, args)`, an external dotted-path lookup library, is
  modelled as lookup of the whole path string in the coerced-argument map.
* `getArgumentValues` (external, graphql-js) coerces a field's AST
  arguments plus variables to concrete values and may throw; its outcome
  is attached to each field selection node as
  `Option (List (String × ArgValue))`, `none` meaning the coercion threw.
* Recursion through fragment spreads can diverge in the source (no cycle
  guard), so the tree walk takes a fuel parameter; fuel `0` returns cost 0.
-/

/-- A coerced GraphQL argument value as seen by the cost analyzer:
a number, a list, a missing value (`undefined`), or any other value
(only ever observed through `Number(v) || 0`, which gives `0`). -/
inductive ArgValue where
  | num (n : Int)
  | list (xs : List ArgValue)
  | absent
  | other

/-- JS `Number(v)` coercion with `NaN` collapsed to `0` (every use in the
source either applies `|| 0` or only tests truthiness, and `NaN` is falsy
just like `0`).  `Number` of a singleton array coerces its element. -/
def jsNumber : ArgValue → Int
  | .num n => n
  | .list [] => 0
  | .list (x :: []) => jsNumber x
  | .list (_ :: _ :: _) => 0
  | .absent => 0
  | .other => 0

/-- First-match string-keyed lookup, modelling JS object property access. -/
def alist {α : Type _} (l : List (String × α)) (k : String) : Option α :=
  (l.find? (fun p => p.1 = k)).map (fun p => p.2)

/-- Model of the external `selectn(path, fieldArgs)` lookup: a missing
path yields `undefined` (`ArgValue.absent`). -/
def selectn (path : String) (fieldArgs : List (String × ArgValue)) : ArgValue :=
  match alist fieldArgs path with
  | some v => v
  | none => .absent

/-- One resolved multiplier value, from the body of the `map` in
`getMultipliersFromString`: an array contributes its length, anything
else contributes `Number(value) || 0`. -/
def toMultiplier : ArgValue → Int
  | .list xs => (xs.length : Int)
  | v => jsNumber v

/-- `getMultipliersFromString`: resolve each name through `selectn`,
coerce, and drop zero values. -/
def getMultipliersFromString (multipliers : List String)
    (fieldArgs : List (String × ArgValue)) : List Int :=
  (multipliers.map (fun m => toMultiplier (selectn m fieldArgs))).filter
    (fun m => decide (m ≠ 0))

/-- An element of the AST list node supplied to the `multipliers` directive
argument: only string literals are kept by `getMultipliersFromListNode`. -/
inductive MultItem where
  | str (s : String)
  | nonStr

/-- `getMultipliersFromListNode`: keep the string elements of the AST list
and resolve them like `getMultipliersFromString`. -/
def getMultipliersFromListNode (listNode : List MultItem)
    (fieldArgs : List (String × ArgValue)) : List Int :=
  getMultipliersFromString
    (listNode.filterMap (fun i => match i with | .str s => some s | .nonStr => none))
    fieldArgs

/-- The arguments of one `@cost` directive occurrence in the schema AST.
`none` models an argument that is missing or has the wrong AST kind (the
source checks `Kind.INT` / `Kind.BOOLEAN` / `Kind.LIST` and falls back to
the same default in both cases).  `multiplierArg` is the deprecated
singular form; its payload is the argument-name string. -/
structure CostDirective where
  complexityArg : Option Int := none
  useMultipliersArg : Option Bool := none
  multiplierArg : Option String := none
  multipliersArg : Option (List MultItem) := none

/-- The field-info record `{node, parentType, fieldArgs}` handed to
function-valued cost-map entries (the node is observed through its name). -/
structure CMFieldInfo where
  nodeName : String
  parentType : String
  fieldArgs : List (String × ArgValue)

/-- A cost-map `complexity` entry: a static number or a function of the
field occurrence. -/
inductive CMInt where
  | static (n : Int)
  | func (f : CMFieldInfo → Int)

/-- A cost-map `multipliers` entry: a static list of argument names or a
function of the field occurrence. -/
inductive CMMults where
  | strs (names : List String)
  | func (f : CMFieldInfo → List Int)

/-- One entry of the user-supplied cost map (`costMap[Type][field]`);
every key is optional.  `{}` (all fields `none`) models an empty entry. -/
structure CostMapEntry where
  useMultipliers : Option Bool := none
  multiplier : Option String := none
  complexity : Option CMInt := none
  multipliers : Option CMMults := none

/-- The configuration object consumed by `computeCost`
(`NodeCostConfiguration` in the source); `none` fields model `undefined`
properties, replaced by the destructuring defaults in `computeCost`. -/
structure NodeCostConfiguration where
  multiplier : Option Int := none
  useMultipliers : Option Bool := none
  complexity : Option Int := none
  multipliers : Option (List Int) := none

/-- The inclusive complexity range option (`{min, max}`). -/
structure ComplexityRange where
  min : Int
  max : Int
deriving DecidableEq

/-- The `CostAnalysisOptions` record.  Callbacks are modelled by presence
(`hasOnComplete`) or as a Lean function (`createError`); `variables` is
already folded into the per-node coerced arguments. -/
structure Options where
  maximumCost : Int
  defaultCost : Int := 0
  complexityRange : Option ComplexityRange := none
  costMap : Option (List (String × List (String × CostMapEntry))) := none
  hasOnComplete : Bool := false
  createError : Option (Int → Int → String) := none

/-- The constructor's `assert` conditions: `maximumCost` must be a
positive number, and a supplied range must have truthy (`≠ 0`) bounds
with `min < max`.  `true` means construction succeeds. -/
def constructorOk (o : Options) : Bool :=
  (decide (o.maximumCost > 0)) &&
    (match o.complexityRange with
     | none => true
     | some r => decide (r.min ≠ 0) && decide (r.max ≠ 0) && decide (r.min < r.max))

/-- `this.defaultComplexity = (complexityRange && complexityRange.min) || 1`. -/
def defaultComplexity (o : Options) : Int :=
  match o.complexityRange with
  | some r => if r.min ≠ 0 then r.min else 1
  | none => 1

/-- The complexity-out-of-range diagnostic built in `computeCost`. -/
def complexityRangeMessage (mn mx : Int) : String :=
  s!"The complexity argument must be between {mn} and {mx}"

/-- The multiplier application tail of `computeCost`: append the summed
field multipliers (when any) to the ancestor chain and multiply, or
return the bare complexity when `useMultipliers` is false.  Returns
(cost, updated `operationMultipliers`, reported errors). -/
def costWithMultipliers (complexity : Int) (useMultipliers : Bool)
    (multipliers : List Int) (chain : List Int) : Int × List Int × List String :=
  if useMultipliers then
    let chain' := if multipliers ≠ [] then chain ++ [multipliers.foldl (· + ·) 0] else chain
    (chain'.foldl (· * ·) complexity, chain', [])
  else (complexity, chain, [])

/-- `computeCost`: `none` models calling it with `undefined`
(`typeof arguments[0] !== 'object'` → default cost, state untouched).
Otherwise apply the destructuring defaults, fold the deprecated singular
multiplier in, enforce the complexity range, and apply the multipliers.
Returns (cost, updated `operationMultipliers`, reported errors). -/
def computeCost (o : Options) (chain : List Int)
    (cfg? : Option NodeCostConfiguration) : Int × List Int × List String :=
  match cfg? with
  | none => (o.defaultCost, chain, [])
  | some cfg =>
    let useMultipliers := cfg.useMultipliers.getD true
    let complexity := cfg.complexity.getD (defaultComplexity o)
    let multipliers0 := cfg.multipliers.getD []
    let multipliers :=
      match cfg.multiplier with
      | some m => if m ≠ 0 then (if multipliers0 ≠ [] then multipliers0 else [m]) else multipliers0
      | none => multipliers0
    match o.complexityRange with
    | some r =>
      if complexity > r.max ∨ complexity < r.min then
        (o.defaultCost, chain, [complexityRangeMessage r.min r.max])
      else costWithMultipliers complexity useMultipliers multipliers chain
    | none => costWithMultipliers complexity useMultipliers multipliers chain

/-- Look up `costMap[parentType][fieldName]`. -/
def lookupEntry (m : List (String × List (String × CostMapEntry)))
    (parentType fieldName : String) : Option CostMapEntry :=
  (alist m parentType).bind (fun tm => alist tm fieldName)

/-- `getArgsFromCostMap`: an absent entry yields `none` (→ default cost);
a present entry is resolved field by field, invoking function-valued
`complexity`/`multipliers` entries on the field occurrence.  The
deprecated `multiplier` name is resolved through `selectn` (numeric
values; non-numeric resolutions coerce to the falsy `0`). -/
def getArgsFromCostMap (o : Options) (parentType nodeName : String)
    (fieldArgs : List (String × ArgValue)) : Option NodeCostConfiguration :=
  match o.costMap with
  | none => none
  | some m =>
    match lookupEntry m parentType nodeName with
    | none => none
    | some e =>
      let info : CMFieldInfo := ⟨nodeName, parentType, fieldArgs⟩
      some
        { useMultipliers := e.useMultipliers
          multiplier := e.multiplier.bind (fun name =>
            if name = "" then none
            else match selectn name fieldArgs with
              | .absent => none
              | v => some (jsNumber v))
          complexity :=
            match e.complexity with
            | none => none
            | some (.static n) => some n
            | some (.func f) => some (f info)
          multipliers := some
            (match e.multipliers with
             | some (.func f) => f info
             | some (.strs names) => getMultipliersFromString names fieldArgs
             | none => getMultipliersFromString [] fieldArgs) }

/-- `getArgsFromDirectives`: find the directive named `cost`; if present,
resolve its four arguments with their documented defaults (`complexity` →
`defaultComplexity`, `useMultipliers` → `true`, `multipliers` → `[]`,
deprecated `multiplier` → `Number(selectn(name, fieldArgs))`). -/
def getArgsFromDirectives (o : Options)
    (directives : List (String × CostDirective))
    (fieldArgs : List (String × ArgValue)) : Option NodeCostConfiguration :=
  match alist directives "cost" with
  | none => none
  | some cd =>
    some
      { complexity := some (match cd.complexityArg with
          | some n => n
          | none => defaultComplexity o)
        multiplier := cd.multiplierArg.bind (fun s =>
          if s = "" then none else some (jsNumber (selectn s fieldArgs)))
        multipliers := some (match cd.multipliersArg with
          | some items => getMultipliersFromListNode items fieldArgs
          | none => [])
        useMultipliers := some (cd.useMultipliersArg.getD true) }

/-- The kind of a named schema type, mirroring the `instanceof` checks. -/
inductive TypeKind where
  | object
  | interface
  | union
  | scalar
deriving DecidableEq

/-- One `@cost`-bearing field definition: its named output type
(`getNamedType(field.type)`) and its AST directives. -/
structure FieldDef where
  typeName : String
  directives : List (String × CostDirective) := []

/-- A named schema type with its fields and AST directives. -/
structure TypeDef where
  name : String
  kind : TypeKind
  fields : List (String × FieldDef) := []
  directives : List (String × CostDirective) := []

/-- The schema interface the analyzer consumes: named-type lookup plus
the three root-operation type names. -/
structure Schema where
  types : List (String × TypeDef) := []
  queryType : Option String := none
  mutationType : Option String := none
  subscriptionType : Option String := none

/-- `schema.getType(name)`. -/
def getType (s : Schema) (name : String) : Option TypeDef :=
  alist s.types name

/-- `typeDef.getFields()` guarded by the object/interface `instanceof`
checks (anything else contributes the empty field map). -/
def nodeFields (td? : Option TypeDef) : List (String × FieldDef) :=
  match td? with
  | some td =>
    match td.kind with
    | .object => td.fields
    | .interface => td.fields
    | _ => []
  | none => []

/-- One selection of a selection set.  A field carries the outcome of
external argument coercion (`none` = `getArgumentValues` threw) and its
own sub-selections (`[]` models an absent selection set: the source
returns 0 for a node without `selectionSet`, which coincides with walking
an empty list). -/
inductive Selection where
  | field (name : String) (argsResult : Option (List (String × ArgValue)))
      (sels : List Selection)
  | fragSpread (name : String)
  | inlineFrag (typeCond : Option String) (sels : List Selection)

/-- A named fragment definition: its type condition and selections. -/
structure Fragment where
  typeCondition : String
  sels : List Selection

/-- Everything one evaluation session reads: the options, the compiled
schema, and the document's fragment definitions
(`context.getFragment`). -/
structure Env where
  options : Options
  schema : Schema
  fragments : List (String × Fragment) := []

/-- The body of one iteration of the `for (const childNode of selections)`
loop in `computeNodeCost`, for the child's own contribution.  `recur` is
the recursive tree walk (`this.computeNodeCost` at one less fuel).
Returns (the child's `nodeCost`, its fragment-branch candidate if it
pushed one onto `fragmentCosts`, the errors it reported, in order).
Every case starts from `operationMultipliers = [...parentMultipliers]`
(the per-child reset). -/
def childStep (env : Env)
    (recur : List Selection → Option TypeDef → List Int → Int × List String)
    (td : Option TypeDef) (pm : List Int) : Selection → Int × Option Int × List String
  | .field name argsResult sels =>
    match alist (nodeFields td) name with
    | none => (env.options.defaultCost, none, [])
    | some f =>
      let fieldType := getType env.schema f.typeName
      match argsResult with
      | none => (env.options.defaultCost, none, [])
      | some fieldArgs =>
        let own : Int × List Int × List String :=
          match env.options.costMap with
          | some _ =>
            let cfg :=
              match td with
              | some t => if t.name ≠ "" then getArgsFromCostMap env.options t.name name fieldArgs else none
              | none => none
            computeCost env.options pm cfg
          | none =>
            let fieldDirArgs := getArgsFromDirectives env.options f.directives fieldArgs
            let r1 := computeCost env.options pm fieldDirArgs
            if fieldDirArgs.isSome then r1
            else
              match fieldType with
              | some ft =>
                if ft.kind = TypeKind.object then
                  computeCost env.options pm (getArgsFromDirectives env.options ft.directives fieldArgs)
                else r1
              | none => r1
        let child := recur sels fieldType own.2.1
        (own.1 + child.1, none, own.2.2 ++ child.2)
  | .fragSpread name =>
    match alist env.fragments name with
    | some frag =>
      let ft := getType env.schema frag.typeCondition
      let child := recur frag.sels ft pm
      (0, some child.1, child.2)
    | none => (0, some env.options.defaultCost, [])
  | .inlineFrag typeCond sels =>
    let ft :=
      match typeCond with
      | some tn => getType env.schema tn
      | none => td
    let child := recur sels ft pm
    (0, some child.1, child.2)

/-- The selection loop of `computeNodeCost`: accumulate
`total = Math.max(nodeCost, 0) + total`, collect `fragmentCosts` and
reported errors in visit order. -/
def walkSels (env : Env)
    (recur : List Selection → Option TypeDef → List Int → Int × List String) :
    List Selection → Option TypeDef → List Int → Int × List Int × List String
  | [], _, _ => (0, [], [])
  | child :: rest, td, pm =>
    let r := childStep env recur td pm child
    let w := walkSels env recur rest td pm
    (max r.1 0 + w.1, r.2.1.toList ++ w.2.1, r.2.2 ++ w.2.2)

/-- `Math.max(...fragmentCosts)` (only evaluated on a nonempty list). -/
def listMax : List Int → Int
  | [] => 0
  | x :: xs => xs.foldl max x

/-- The epilogue of `computeNodeCost`: return the running total, plus the
largest fragment-branch candidate when any were collected. -/
def nodeTotal (r : Int × List Int × List String) : Int × List String :=
  (if r.2.1 = [] then r.1 else r.1 + listMax r.2.1, r.2.2)

/-- `computeNodeCost(node, typeDef, parentMultipliers)`, fuelled: walk the
node's selections against `typeDef`, starting every child from
`parentMultipliers`.  Fuel `0` stands for the divergence the source would
exhibit on unboundedly deep fragment recursion. -/
def computeNodeCost (env : Env) :
    Nat → List Selection → Option TypeDef → List Int → Int × List String
  | 0, _, _, _ => (0, [])
  | fuel + 1, sels, td, pm =>
    nodeTotal (walkSels env (computeNodeCost env fuel) sels td pm)

/-- The default budget-exceeded message (`costAnalysisMessage`). -/
def costAnalysisMessage (mx actual : Int) : String :=
  s!"The query exceeds the maximum cost of {mx}. Actual cost is {actual}"

/-- `createError()`: the caller-supplied constructor when configured,
otherwise the default message. -/
def createError (o : Options) (cost : Int) : String :=
  match o.createError with
  | some f => f o.maximumCost cost
  | none => costAnalysisMessage o.maximumCost cost

/-- `onOperationDefinitionLeave`: the list of arguments passed to
`onComplete` (at most one call) and the list of errors reported through
the validation context. -/
def onOperationDefinitionLeave (o : Options) (cost : Int) : List Int × List String :=
  (if o.hasOnComplete then [cost] else [],
   if cost > o.maximumCost then [createError o cost] else [])

/-! ## Basic lemmas about the tree walk -/

theorem walkSels_nil (env : Env) (recur) (td : Option TypeDef) (pm : List Int) :
    walkSels env recur [] td pm = (0, [], []) := rfl

theorem walkSels_cons (env : Env) (recur) (td : Option TypeDef) (pm : List Int)
    (c : Selection) (rest : List Selection) :
    walkSels env recur (c :: rest) td pm =
      (max (childStep env recur td pm c).1 0 + (walkSels env recur rest td pm).1,
       (childStep env recur td pm c).2.1.toList ++ (walkSels env recur rest td pm).2.1,
       (childStep env recur td pm c).2.2 ++ (walkSels env recur rest td pm).2.2) := rfl

theorem walkSels_singleton (env : Env) (recur) (td : Option TypeDef) (pm : List Int)
    (c : Selection) :
    walkSels env recur [c] td pm =
      (max (childStep env recur td pm c).1 0,
       (childStep env recur td pm c).2.1.toList,
       (childStep env recur td pm c).2.2) := by
  rw [walkSels_cons, walkSels_nil]
  simp

theorem listMax_le_foldl (x y : Int) (xs : List Int) (h : x ≤ y) :
    x ≤ xs.foldl max y := by
  induction xs generalizing y with
  | nil => exact h
  | cons z zs ih => exact ih (max y z) (le_trans h (le_max_left y z))

theorem listMax_nonneg (xs : List Int) (h : ∀ x ∈ xs, 0 ≤ x) : 0 ≤ listMax xs := by
  cases xs with
  | nil => exact le_refl 0
  | cons x ys => exact listMax_le_foldl 0 x ys (h x (by simp))

/-! ## C9: multiplier extraction -/

/-- Modelled from the spec: the contribution of one resolved argument
value to the multiplier list.  A sequence contributes its length, a
numeric value contributes that number, and a value that resolves to 0,
is missing, or is non-coercible is dropped (`none`). -/
def specMultiplierValue (v : ArgValue) : Option Int :=
  match v with
  | .list xs => if (xs.length : Int) = 0 then none else some (xs.length : Int)
  | .num n => if n = 0 then none else some n
  | .absent => none
  | .other => none

theorem getMultipliersFromString_cons (nm : String) (ns : List String)
    (fieldArgs : List (String × ArgValue)) :
    getMultipliersFromString (nm :: ns) fieldArgs =
      (if toMultiplier (selectn nm fieldArgs) ≠ 0
       then toMultiplier (selectn nm fieldArgs) :: getMultipliersFromString ns fieldArgs
       else getMultipliersFromString ns fieldArgs) := by
  simp only [getMultipliersFromString, List.map_cons, List.filter_cons]
  split
  · next h =>
    rw [if_pos]
    simpa using h
  · next h =>
    rw [if_neg]
    simpa using h

/-- C9: the multiplier extractor returns, in input order, one number per
name that resolved to a usable value — a list-valued argument contributes
its length, a numeric value contributes that number, and names resolving
to 0, missing, or non-coercible values are dropped. -/
theorem multiplier_extraction_refines_spec (names : List String)
    (fieldArgs : List (String × ArgValue)) :
    getMultipliersFromString names fieldArgs =
      names.filterMap (fun nm => specMultiplierValue (selectn nm fieldArgs)) := by
  induction names with
  | nil => rfl
  | cons nm ns ih =>
    rw [getMultipliersFromString_cons, List.filterMap_cons, ih]
    cases h : selectn nm fieldArgs with
    | num n =>
      by_cases h0 : n = 0 <;>
        simp [specMultiplierValue, toMultiplier, jsNumber, h0]
    | list xs =>
      by_cases h0 : (xs.length : Int) = 0 <;>
        simp [specMultiplierValue, toMultiplier, h0]
    | absent => simp [specMultiplierValue, toMultiplier, jsNumber]
    | other => simp [specMultiplierValue, toMultiplier, jsNumber]

/-! ## C5: constructor validation -/

/-- Options exhibiting the gap in the claimed constructor validation: a
complexity range with a non-positive minimum bound. -/
def negativeMinOptions : Options :=
  { maximumCost := 10, complexityRange := some ⟨-2, 1⟩ }

/-- C5 counterexample: the claim says construction fails whenever a
supplied complexity range has a non-positive bound, but the source only
tests the bounds for truthiness (`min && max && min < max`), so the
range `{min: -2, max: 1}` — with a non-positive minimum — is accepted. -/
theorem constructor_negative_range_counterexample :
    negativeMinOptions.complexityRange = some ⟨-2, 1⟩ ∧ (-2 : Int) ≤ 0 ∧
      constructorOk negativeMinOptions = true := by
  refine ⟨rfl, by norm_num, by decide⟩

/-- C5 amended: construction succeeds exactly when `maximumCost` is
positive and any supplied complexity range has nonzero (truthy) bounds
with `min < max`; a negative bound is accepted as long as it is nonzero
and below `max`. -/
theorem constructor_validation_amended (o : Options) :
    constructorOk o = true ↔
      (0 < o.maximumCost ∧
        (match o.complexityRange with
         | none => True
         | some r => r.min ≠ 0 ∧ r.max ≠ 0 ∧ r.min < r.max)) := by
  cases h : o.complexityRange with
  | none => simp [constructorOk, h]
  | some r => simp [constructorOk, h, and_assoc]

/-- Closed instance of the amended constructor-validation theorem. -/
theorem constructor_validation_amended_witness :
    constructorOk { maximumCost := 10, complexityRange := some ⟨2, 5⟩ } = true ↔
      (0 < (10 : Int) ∧ ((2 : Int) ≠ 0 ∧ (5 : Int) ≠ 0 ∧ (2 : Int) < 5)) :=
  constructor_validation_amended { maximumCost := 10, complexityRange := some ⟨2, 5⟩ }

/-! ## C8: operation leave -/

/-- C8: on leaving an operation the completion callback (when configured)
receives the final total cost whether or not the budget was exceeded, and
exactly one error — the default message or the one built by the
configured `createError` — is reported iff the cost strictly exceeds
`maximumCost`. -/
theorem operation_leave_oncomplete_and_error (o : Options) (cost : Int)
    (hcb : o.hasOnComplete = true) :
    (onOperationDefinitionLeave o cost).1 = [cost] ∧
    ((onOperationDefinitionLeave o cost).2.length = 1 ↔ cost > o.maximumCost) ∧
    (onOperationDefinitionLeave o cost).2 =
      (if cost > o.maximumCost then [createError o cost] else []) ∧
    (o.createError = none → cost > o.maximumCost →
      (onOperationDefinitionLeave o cost).2 = [costAnalysisMessage o.maximumCost cost]) := by
  refine ⟨by simp [onOperationDefinitionLeave, hcb], ?_, rfl, ?_⟩
  · by_cases h : cost > o.maximumCost <;> simp [onOperationDefinitionLeave, h]
  · intro hce h
    simp [onOperationDefinitionLeave, h, createError, hce]

/-- Closed instance of the operation-leave theorem, at a cost of 15
against a maximum of 10 with `onComplete` configured. -/
theorem operation_leave_oncomplete_and_error_witness :
    (onOperationDefinitionLeave { maximumCost := 10, hasOnComplete := true } 15).1 = [15] ∧
    ((onOperationDefinitionLeave { maximumCost := 10, hasOnComplete := true } 15).2.length = 1 ↔
      (15 : Int) > 10) ∧
    (onOperationDefinitionLeave { maximumCost := 10, hasOnComplete := true } 15).2 =
      (if (15 : Int) > 10
       then [createError { maximumCost := 10, hasOnComplete := true } 15] else []) ∧
    (({ maximumCost := 10, hasOnComplete := true } : Options).createError = none →
      (15 : Int) > 10 →
      (onOperationDefinitionLeave { maximumCost := 10, hasOnComplete := true } 15).2 =
        [costAnalysisMessage 10 15]) :=
  operation_leave_oncomplete_and_error { maximumCost := 10, hasOnComplete := true } 15 rfl

/-! ## C7: complexity out of range -/

/-- C7: when a complexity range is configured and the resolved complexity
(the configured value, or the default when absent) falls outside it,
`computeCost` reports exactly one error naming both bounds, returns the
configured default cost, and leaves the ancestor multiplier chain
untouched (so this field's children, and all later siblings, are
evaluated against the inherited chain). -/
theorem complexity_out_of_range_default_cost (o : Options) (chain : List Int)
    (cfg : NodeCostConfiguration) (r : ComplexityRange)
    (hr : o.complexityRange = some r)
    (hout : cfg.complexity.getD (defaultComplexity o) > r.max ∨
      cfg.complexity.getD (defaultComplexity o) < r.min) :
    computeCost o chain (some cfg) =
      (o.defaultCost, chain, [complexityRangeMessage r.min r.max]) := by
  simp only [computeCost, hr]
  rw [if_pos hout]

/-- Closed instance: complexity 12 against the range [1, 10], on the
chain [2]. -/
theorem complexity_out_of_range_default_cost_witness :
    computeCost { maximumCost := 100, complexityRange := some ⟨1, 10⟩ } [2]
        (some { complexity := some 12 }) =
      (0, [2], [complexityRangeMessage 1 10]) :=
  complexity_out_of_range_default_cost
    { maximumCost := 100, complexityRange := some ⟨1, 10⟩ } [2]
    { complexity := some 12 } ⟨1, 10⟩ rfl (by decide)

/-! ## C2: level totals -/

/-- Modelled from the spec: the cost a selection contributes directly to
its level's running sum, observed by walking that selection alone. -/
def directContribution (env : Env)
    (recur : List Selection → Option TypeDef → List Int → Int × List String)
    (td : Option TypeDef) (pm : List Int) (c : Selection) : Int :=
  (walkSels env recur [c] td pm).1

/-- Modelled from the spec: the branch candidates a selection records for
its level, observed by walking that selection alone. -/
def branchContributions (env : Env)
    (recur : List Selection → Option TypeDef → List Int → Int × List String)
    (td : Option TypeDef) (pm : List Int) (c : Selection) : List Int :=
  (walkSels env recur [c] td pm).2.1

theorem walkSels_total_eq_sum (env : Env) (recur) (td : Option TypeDef)
    (pm : List Int) (sels : List Selection) :
    (walkSels env recur sels td pm).1 =
      (sels.map (directContribution env recur td pm)).sum := by
  induction sels with
  | nil => simp [walkSels_nil]
  | cons c cs ih =>
    rw [walkSels_cons]
    simp only [List.map_cons, List.sum_cons, directContribution, walkSels_singleton]
    rw [ih]

theorem walkSels_candidates_eq_join (env : Env) (recur) (td : Option TypeDef)
    (pm : List Int) (sels : List Selection) :
    (walkSels env recur sels td pm).2.1 =
      (sels.map (branchContributions env recur td pm)).flatten := by
  induction sels with
  | nil => simp [walkSels_nil]
  | cons c cs ih =>
    rw [walkSels_cons]
    simp only [List.map_cons, List.flatten_cons, branchContributions, walkSels_singleton]
    rw [ih]

/-- C2: the total of one selection level is the sum of the directly
summed per-selection costs plus the maximum of the fragment-branch
candidates (plus 0 when there are none); fragment spreads and inline
fragments contribute 0 to the direct sum. -/
theorem level_total_direct_sum_plus_branch_max (env : Env) (f : Nat)
    (sels : List Selection) (td : Option TypeDef) (pm : List Int) :
    ((computeNodeCost env (f + 1) sels td pm).1 =
      (sels.map (directContribution env (computeNodeCost env f) td pm)).sum +
        (if (sels.map (branchContributions env (computeNodeCost env f) td pm)).flatten = []
         then 0
         else listMax
           (sels.map (branchContributions env (computeNodeCost env f) td pm)).flatten)) ∧
    (∀ n, directContribution env (computeNodeCost env f) td pm (.fragSpread n) = 0) ∧
    (∀ tc s, directContribution env (computeNodeCost env f) td pm (.inlineFrag tc s) = 0) := by
  refine ⟨?_, ?_, ?_⟩
  · show (nodeTotal (walkSels env (computeNodeCost env f) sels td pm)).1 = _
    rw [nodeTotal]
    rw [walkSels_total_eq_sum, walkSels_candidates_eq_join]
    split
    · next h => simp
    · next h => rfl
  · intro n
    rw [directContribution, walkSels_singleton]
    cases h : alist env.fragments n with
    | none => simp [childStep, h]
    | some frag => simp [childStep, h]
  · intro tc s
    rw [directContribution, walkSels_singleton]
    cases tc with
    | none => simp [childStep]
    | some tn => simp [childStep]

/-! ## C3: sibling isolation -/

/-- C3: walking two blocks of sibling selections in sequence is the same
as walking each block independently from the parent's inherited
multiplier chain: per-level totals add, candidates and errors append, and
nothing a sibling appended to the chain is visible to a later sibling
(every child starts from the same `pm`). -/
theorem sibling_chain_isolation (env : Env) (recur) (s1 s2 : List Selection)
    (td : Option TypeDef) (pm : List Int) :
    walkSels env recur (s1 ++ s2) td pm =
      ((walkSels env recur s1 td pm).1 + (walkSels env recur s2 td pm).1,
       (walkSels env recur s1 td pm).2.1 ++ (walkSels env recur s2 td pm).2.1,
       (walkSels env recur s1 td pm).2.2 ++ (walkSels env recur s2 td pm).2.2) := by
  induction s1 with
  | nil => rw [List.nil_append, walkSels_nil]; simp
  | cons c cs ih =>
    rw [List.cons_append, walkSels_cons, ih, walkSels_cons]
    simp [add_assoc, List.append_assoc]

/-! ## C6: clamping and non-negative totals -/

theorem childStep_field_no_candidate (env : Env) (recur) (td : Option TypeDef)
    (pm : List Int) (n : String) (a : Option (List (String × ArgValue)))
    (s : List Selection) :
    (childStep env recur td pm (.field n a s)).2.1 = none := by
  cases h : alist (nodeFields td) n with
  | none => simp [childStep, h]
  | some fd =>
    cases a with
    | none => simp [childStep, h]
    | some fa => simp [childStep, h]

theorem childStep_fragSpread_candidate (env : Env) (recur) (td : Option TypeDef)
    (pm : List Int) (n : String) :
    (childStep env recur td pm (.fragSpread n)).2.1 =
      some (match alist env.fragments n with
            | some frag => (recur frag.sels (getType env.schema frag.typeCondition) pm).1
            | none => env.options.defaultCost) := by
  cases h : alist env.fragments n <;> simp [childStep, h]

theorem childStep_inlineFrag_candidate (env : Env) (recur) (td : Option TypeDef)
    (pm : List Int) (tc : Option String) (s : List Selection) :
    (childStep env recur td pm (.inlineFrag tc s)).2.1 =
      some ((recur s (match tc with
                      | some tn => getType env.schema tn
                      | none => td) pm).1) := by
  cases tc <;> simp [childStep]

theorem walkSels_total_nonneg (env : Env) (recur) (sels : List Selection)
    (td : Option TypeDef) (pm : List Int) :
    0 ≤ (walkSels env recur sels td pm).1 := by
  induction sels with
  | nil => simp [walkSels_nil]
  | cons c cs ih =>
    rw [walkSels_cons]
    exact add_nonneg (le_max_right _ _) ih

theorem walkSels_candidates_nonneg (env : Env) (recur) (sels : List Selection)
    (td : Option TypeDef) (pm : List Int)
    (hdc : 0 ≤ env.options.defaultCost)
    (hrec : ∀ s t p, 0 ≤ (recur s t p).1) :
    ∀ x ∈ (walkSels env recur sels td pm).2.1, 0 ≤ x := by
  induction sels with
  | nil => simp [walkSels_nil]
  | cons c cs ih =>
    rw [walkSels_cons]
    intro x hx
    rcases List.mem_append.mp hx with h | h
    · cases c with
      | field n a s =>
        rw [childStep_field_no_candidate] at h
        simp at h
      | fragSpread n =>
        rw [childStep_fragSpread_candidate] at h
        simp at h
        subst h
        cases halist : alist env.fragments n with
        | none => simpa [halist] using hdc
        | some frag => simpa [halist] using hrec _ _ _
      | inlineFrag tc s =>
        rw [childStep_inlineFrag_candidate] at h
        simp at h
        subst h
        exact hrec _ _ _
    · exact ih x h

/-- C6: what the selection loop adds to a level's running total for each
child is clamped to zero minimum, and — provided the configured default
cost is non-negative — the total cost of every walk is non-negative, so a
negative-valued multiplier argument can never drive a total negative. -/
theorem contribution_clamped_total_nonneg (env : Env) (fuel : Nat)
    (sels : List Selection) (td : Option TypeDef) (pm : List Int)
    (hdc : 0 ≤ env.options.defaultCost) :
    (∀ recur c rest,
      (walkSels env recur (c :: rest) td pm).1 =
        max (childStep env recur td pm c).1 0 + (walkSels env recur rest td pm).1 ∧
      0 ≤ max (childStep env recur td pm c).1 0) ∧
    0 ≤ (computeNodeCost env fuel sels td pm).1 := by
  refine ⟨fun recur c rest => ⟨by rw [walkSels_cons], le_max_right _ _⟩, ?_⟩
  induction fuel generalizing sels td pm with
  | zero => simp [computeNodeCost]
  | succ f ih =>
    show 0 ≤ (nodeTotal (walkSels env (computeNodeCost env f) sels td pm)).1
    rw [nodeTotal]
    split
    · exact walkSels_total_nonneg env _ sels td pm
    · refine add_nonneg (walkSels_total_nonneg env _ sels td pm) ?_
      refine listMax_nonneg _ ?_
      exact walkSels_candidates_nonneg env _ sels td pm hdc
        (fun s t p => ih s t p)

/-- Closed instance of the clamping/non-negativity theorem: a multiplier
field queried with `limit = -5` still yields a non-negative total. -/
def negMultiplierEnv : Env :=
  { options := { maximumCost := 100 },
    schema :=
      { types :=
          [ ("Query", { name := "Query", kind := .object,
                        fields := [("first", { typeName := "Int",
                                               directives := [("cost", { complexityArg := some 2,
                                                                         multipliersArg := some [.str "limit"] })] })] }),
            ("Int", { name := "Int", kind := .scalar }) ],
        queryType := some "Query" } }

theorem contribution_clamped_total_nonneg_witness :
    (∀ recur c rest,
      (walkSels negMultiplierEnv recur (c :: rest)
          (getType negMultiplierEnv.schema "Query") []).1 =
        max (childStep negMultiplierEnv recur
              (getType negMultiplierEnv.schema "Query") [] c).1 0 +
          (walkSels negMultiplierEnv recur rest
            (getType negMultiplierEnv.schema "Query") []).1 ∧
      0 ≤ max (childStep negMultiplierEnv recur
            (getType negMultiplierEnv.schema "Query") [] c).1 0) ∧
    0 ≤ (computeNodeCost negMultiplierEnv 2
          [ .field "first" (some [("limit", .num (-5))]) [] ]
          (getType negMultiplierEnv.schema "Query") []).1 :=
  contribution_clamped_total_nonneg negMultiplierEnv 2
    [ .field "first" (some [("limit", .num (-5))]) [] ]
    (getType negMultiplierEnv.schema "Query") [] (by decide)

/-! ## C10: unresolvable fragment spreads -/

/-- C10: a fragment spread whose name has no matching fragment definition
is neither skipped nor reported: it records the configured default cost
as a branch candidate (so it participates in the level's branch maximum),
contributes 0 to the direct sum, reports no error, and the remaining
siblings are evaluated as usual. -/
theorem missing_fragment_default_branch_candidate (env : Env) (recur)
    (td : Option TypeDef) (pm : List Int) (name : String) (rest : List Selection)
    (hfrag : alist env.fragments name = none) :
    childStep env recur td pm (.fragSpread name) =
      (0, some env.options.defaultCost, []) ∧
    walkSels env recur (.fragSpread name :: rest) td pm =
      ((walkSels env recur rest td pm).1,
       env.options.defaultCost :: (walkSels env recur rest td pm).2.1,
       (walkSels env recur rest td pm).2.2) ∧
    ∀ f : Nat,
      (computeNodeCost env (f + 1) (.fragSpread name :: rest) td pm).1 =
        (walkSels env (computeNodeCost env f) rest td pm).1 +
          listMax (env.options.defaultCost ::
            (walkSels env (computeNodeCost env f) rest td pm).2.1) := by
  have hstep : childStep env recur td pm (.fragSpread name) =
      (0, some env.options.defaultCost, []) := by
    simp [childStep, hfrag]
  have hwalk : ∀ recur2, walkSels env recur2 (.fragSpread name :: rest) td pm =
      ((walkSels env recur2 rest td pm).1,
       env.options.defaultCost :: (walkSels env recur2 rest td pm).2.1,
       (walkSels env recur2 rest td pm).2.2) := by
    intro recur2
    rw [walkSels_cons]
    have h2 : childStep env recur2 td pm (.fragSpread name) =
        (0, some env.options.defaultCost, []) := by
      simp [childStep, hfrag]
    rw [h2]
    simp
  refine ⟨hstep, hwalk recur, ?_⟩
  intro f
  show (nodeTotal (walkSels env (computeNodeCost env f)
    (.fragSpread name :: rest) td pm)).1 = _
  rw [hwalk (computeNodeCost env f), nodeTotal]
  simp

/-- Closed instance: the spread `...nope` has no definition; with
defaultCost 0 and no other branch the level total is just the sibling
field's cost. -/
theorem missing_fragment_default_branch_candidate_witness :
    childStep negMultiplierEnv
        (computeNodeCost negMultiplierEnv 1)
        (getType negMultiplierEnv.schema "Query") [] (.fragSpread "nope") =
      (0, some negMultiplierEnv.options.defaultCost, []) ∧
    walkSels negMultiplierEnv (computeNodeCost negMultiplierEnv 1)
        (.fragSpread "nope" :: [.field "first" (some [("limit", .num 3)]) []])
        (getType negMultiplierEnv.schema "Query") [] =
      ((walkSels negMultiplierEnv (computeNodeCost negMultiplierEnv 1)
          [.field "first" (some [("limit", .num 3)]) []]
          (getType negMultiplierEnv.schema "Query") []).1,
       negMultiplierEnv.options.defaultCost ::
         (walkSels negMultiplierEnv (computeNodeCost negMultiplierEnv 1)
           [.field "first" (some [("limit", .num 3)]) []]
           (getType negMultiplierEnv.schema "Query") []).2.1,
       (walkSels negMultiplierEnv (computeNodeCost negMultiplierEnv 1)
         [.field "first" (some [("limit", .num 3)]) []]
         (getType negMultiplierEnv.schema "Query") []).2.2) ∧
    ∀ f : Nat,
      (computeNodeCost negMultiplierEnv (f + 1)
          (.fragSpread "nope" :: [.field "first" (some [("limit", .num 3)]) []])
          (getType negMultiplierEnv.schema "Query") []).1 =
        (walkSels negMultiplierEnv (computeNodeCost negMultiplierEnv f)
            [.field "first" (some [("limit", .num 3)]) []]
            (getType negMultiplierEnv.schema "Query") []).1 +
          listMax (negMultiplierEnv.options.defaultCost ::
            (walkSels negMultiplierEnv (computeNodeCost negMultiplierEnv f)
              [.field "first" (some [("limit", .num 3)]) []]
              (getType negMultiplierEnv.schema "Query") []).2.1) :=
  missing_fragment_default_branch_candidate negMultiplierEnv
    (computeNodeCost negMultiplierEnv 1)
    (getType negMultiplierEnv.schema "Query") [] "nope"
    [.field "first" (some [("limit", .num 3)]) []] rfl

/-! ## C1: multiplicative composition down a path -/

theorem computeNodeCost_succ (env : Env) (f : Nat) (sels : List Selection)
    (td : Option TypeDef) (pm : List Int) :
    computeNodeCost env (f + 1) sels td pm =
      nodeTotal (walkSels env (computeNodeCost env f) sels td pm) := rfl

/-- One directive-annotated multiplier field (`@cost(multipliers:
["limit"], complexity: c)`, queried with `limit = L ≠ 0`, no cost map, no
complexity range): its own cost is `complexity × product(chain ++ [L])`
and its children are walked with the extended chain `pm ++ [L]`. -/
theorem multiplier_field_step (env : Env) (recur) (td : Option TypeDef)
    (pm : List Int) (fname : String) (fd : FieldDef) (cd : CostDirective)
    (L c : Int) (sels : List Selection)
    (hmap : env.options.costMap = none)
    (hrange : env.options.complexityRange = none)
    (hfield : alist (nodeFields td) fname = some fd)
    (hdir : alist fd.directives "cost" = some cd)
    (hcd : cd = { complexityArg := some c, multipliersArg := some [.str "limit"] })
    (hL : L ≠ 0) :
    childStep env recur td pm (.field fname (some [("limit", .num L)]) sels) =
      (List.foldl (· * ·) c (pm ++ [L]) +
        (recur sels (getType env.schema fd.typeName) (pm ++ [L])).1,
       none,
       (recur sels (getType env.schema fd.typeName) (pm ++ [L])).2) := by
  subst hcd
  have hm : getMultipliersFromListNode [.str "limit"] [("limit", ArgValue.num L)] = [L] := by
    simp [getMultipliersFromListNode, getMultipliersFromString, selectn, alist,
      toMultiplier, jsNumber, hL]
  have hd : getArgsFromDirectives env.options fd.directives [("limit", ArgValue.num L)] =
      some { complexity := some c, multiplier := none,
             multipliers := some [L], useMultipliers := some true } := by
    simp [getArgsFromDirectives, hdir, hm]
  have hc : computeCost env.options pm
      (some { complexity := some c, multiplier := none,
              multipliers := some [L], useMultipliers := some true }) =
      (List.foldl (· * ·) c (pm ++ [L]), pm ++ [L], []) := by
    simp [computeCost, hrange, costWithMultipliers]
  simp [childStep, hfield, hmap, hd, hc]

theorem nodeTotal_no_frag (t : Int) (e : List String) :
    nodeTotal (t, [], e) = (t, e) := by
  simp [nodeTotal]

/-- A field definition carrying `@cost(multipliers: ["limit"], complexity: c)`. -/
def limitFieldDef (tn : String) (c : Int) : FieldDef :=
  { typeName := tn,
    directives := [("cost", { complexityArg := some c, multipliersArg := some [.str "limit"] })] }

/-- Three nested object types whose sole fields each carry a `limit`
multiplier and complexities `c1`, `c2`, `c3`. -/
def nestedSchema (c1 c2 c3 : Int) : Schema where
  types :=
    [ ("Query", { name := "Query", kind := .object, fields := [("f1", limitFieldDef "T1" c1)] }),
      ("T1", { name := "T1", kind := .object, fields := [("f2", limitFieldDef "T2" c2)] }),
      ("T2", { name := "T2", kind := .object, fields := [("f3", limitFieldDef "T3" c3)] }),
      ("T3", { name := "T3", kind := .scalar }) ]
  queryType := some "Query"

def nestedEnv (c1 c2 c3 : Int) : Env where
  options := { maximumCost := 1000 }
  schema := nestedSchema c1 c2 c3

/-- The depth-3 query `f1(limit: L) { f2(limit: L) { f3(limit: L) } }`. -/
def nestedQuery (L : Int) : List Selection :=
  [ .field "f1" (some [("limit", .num L)])
      [ .field "f2" (some [("limit", .num L)])
          [ .field "f3" (some [("limit", .num L)]) [] ] ] ]

/-- C1: three nested fields with multiplier argument `limit` and
complexities `c1, c2, c3`, each queried with the same positive
`limit = L`, cost `L·c1 + L²·c2 + L³·c3` in total: each field contributes
its complexity times the product of the ancestor multiplier chain
extended with its own multiplier. -/
theorem nested_multiplier_chain_cost (L c1 c2 c3 : Int) (hL : 0 < L)
    (h1 : 0 ≤ c1) (h2 : 0 ≤ c2) (h3 : 0 ≤ c3) :
    (computeNodeCost (nestedEnv c1 c2 c3) 4 (nestedQuery L)
        (getType (nestedSchema c1 c2 c3) "Query") []).1 =
      L * c1 + L ^ 2 * c2 + L ^ 3 * c3 := by
  have hL0 : L ≠ 0 := ne_of_gt hL
  have t3 : computeNodeCost (nestedEnv c1 c2 c3) 2
      [ .field "f3" (some [("limit", .num L)]) [] ]
      (getType (nestedSchema c1 c2 c3) "T2") [L, L] = (c3 * L * L * L, []) := by
    show nodeTotal (walkSels (nestedEnv c1 c2 c3)
      (computeNodeCost (nestedEnv c1 c2 c3) 1) _ _ _) = _
    rw [walkSels_singleton,
      multiplier_field_step (nestedEnv c1 c2 c3)
        (computeNodeCost (nestedEnv c1 c2 c3) 1)
        (getType (nestedSchema c1 c2 c3) "T2") [L, L] "f3"
        (limitFieldDef "T3" c3) _ L c3 [] rfl rfl rfl rfl rfl hL0]
    have hleaf : computeNodeCost (nestedEnv c1 c2 c3) 1 []
        (getType (nestedEnv c1 c2 c3).schema (limitFieldDef "T3" c3).typeName)
        ([L, L] ++ [L]) = (0, []) := rfl
    rw [hleaf]
    simp only [Option.toList_none, List.nil_append, List.append_nil]
    rw [nodeTotal_no_frag]
    have hnn : (0 : Int) ≤ c3 * L * L * L := by positivity
    simp [List.foldl, max_eq_left hnn]
  have t2 : computeNodeCost (nestedEnv c1 c2 c3) 3
      [ .field "f2" (some [("limit", .num L)])
          [ .field "f3" (some [("limit", .num L)]) [] ] ]
      (getType (nestedSchema c1 c2 c3) "T1") [L] =
        (c2 * L * L + c3 * L * L * L, []) := by
    show nodeTotal (walkSels (nestedEnv c1 c2 c3)
      (computeNodeCost (nestedEnv c1 c2 c3) 2) _ _ _) = _
    rw [walkSels_singleton,
      multiplier_field_step (nestedEnv c1 c2 c3)
        (computeNodeCost (nestedEnv c1 c2 c3) 2)
        (getType (nestedSchema c1 c2 c3) "T1") [L] "f2"
        (limitFieldDef "T2" c2) _ L c2 _ rfl rfl rfl rfl rfl hL0]
    have hmid : getType (nestedEnv c1 c2 c3).schema (limitFieldDef "T2" c2).typeName =
        getType (nestedSchema c1 c2 c3) "T2" := rfl
    rw [hmid]
    have hch : ([L] ++ [L] : List Int) = [L, L] := rfl
    rw [hch, t3]
    simp only [Option.toList_none, List.nil_append, List.append_nil]
    rw [nodeTotal_no_frag]
    have hnn : (0 : Int) ≤ c2 * L * L + c3 * L * L * L := by positivity
    simp [List.foldl, max_eq_left hnn]
  show (nodeTotal (walkSels (nestedEnv c1 c2 c3)
    (computeNodeCost (nestedEnv c1 c2 c3) 3) _ _ _)).1 = _
  rw [nestedQuery, walkSels_singleton,
    multiplier_field_step (nestedEnv c1 c2 c3)
      (computeNodeCost (nestedEnv c1 c2 c3) 3)
      (getType (nestedSchema c1 c2 c3) "Query") [] "f1"
      (limitFieldDef "T1" c1) _ L c1 _ rfl rfl rfl rfl rfl hL0]
  have htop : getType (nestedEnv c1 c2 c3).schema (limitFieldDef "T1" c1).typeName =
      getType (nestedSchema c1 c2 c3) "T1" := rfl
  rw [htop]
  have hch : ([] ++ [L] : List Int) = [L] := rfl
  rw [hch, t2]
  simp only [Option.toList_none, List.nil_append, List.append_nil]
  rw [nodeTotal_no_frag]
  have hnn : (0 : Int) ≤ c1 * L + (c2 * L * L + c3 * L * L * L) := by positivity
  simp only [List.foldl]
  rw [max_eq_left hnn]
  ring

/-- Closed instance of the nested-multiplier theorem: `L = 2`,
complexities 3, 5, 7, total `2·3 + 4·5 + 8·7 = 82`. -/
theorem nested_multiplier_chain_cost_witness :
    (computeNodeCost (nestedEnv 3 5 7) 4 (nestedQuery 2)
        (getType (nestedSchema 3 5 7) "Query") []).1 =
      2 * 3 + 2 ^ 2 * 5 + 2 ^ 3 * 7 :=
  nested_multiplier_chain_cost 2 3 5 7 (by norm_num) (by norm_num) (by norm_num)
    (by norm_num)

/-! ## C4: cost-map override -/

/-- Erase the schema-AST directives of a field definition. -/
def stripFieldDef (f : FieldDef) : FieldDef :=
  { f with directives := [] }

/-- Erase all schema-AST directives of a type definition. -/
def stripTypeDef (td : TypeDef) : TypeDef :=
  { td with directives := [],
            fields := td.fields.map (fun p => (p.1, stripFieldDef p.2)) }

/-- Erase every `@cost` annotation from the schema (options and document
untouched). -/
def stripEnv (env : Env) : Env :=
  { env with
      schema := { env.schema with
                    types := env.schema.types.map (fun p => (p.1, stripTypeDef p.2)) } }

theorem alist_map {α β : Type _} (g : α → β) (l : List (String × α)) (k : String) :
    alist (l.map (fun p => (p.1, g p.2))) k = (alist l k).map g := by
  induction l with
  | nil => rfl
  | cons p ps ih =>
    by_cases h : p.1 = k
    · simp [alist, List.find?, h]
    · simpa [alist, List.find?, h] using ih

theorem getType_strip (env : Env) (n : String) :
    getType (stripEnv env).schema n = (getType env.schema n).map stripTypeDef :=
  alist_map stripTypeDef env.schema.types n

theorem nodeFields_strip (td : Option TypeDef) :
    nodeFields (Option.map stripTypeDef td) =
      (nodeFields td).map (fun p => (p.1, stripFieldDef p.2)) := by
  cases td with
  | none => rfl
  | some t => cases h : t.kind <;> simp [nodeFields, stripTypeDef, h]

theorem childStep_strip (env : Env) (m : List (String × List (String × CostMapEntry)))
    (hmap : env.options.costMap = some m)
    (recur recurS : List Selection → Option TypeDef → List Int → Int × List String)
    (hrec : ∀ s t p, recurS s (Option.map stripTypeDef t) p = recur s t p)
    (td : Option TypeDef) (pm : List Int) (c : Selection) :
    childStep (stripEnv env) recurS (Option.map stripTypeDef td) pm c =
      childStep env recur td pm c := by
  have hopts : (stripEnv env).options = env.options := rfl
  cases c with
  | field name a sels =>
    cases td with
    | none => simp [childStep, nodeFields, alist, stripEnv]
    | some t =>
      have hmaplook : alist (nodeFields (some (stripTypeDef t))) name =
          (alist (nodeFields (some t)) name).map stripFieldDef := by
        have h := alist_map stripFieldDef (nodeFields (some t)) name
        rw [← nodeFields_strip (some t)] at h
        simpa using h
      cases horig : alist (nodeFields (some t)) name with
      | none =>
        have hlook2 : alist (nodeFields (some (stripTypeDef t))) name = none := by
          rw [hmaplook, horig]; rfl
        simp [childStep, hlook2, horig, stripEnv]
      | some f =>
        have hlook2 : alist (nodeFields (some (stripTypeDef t))) name =
            some (stripFieldDef f) := by
          rw [hmaplook, horig]; rfl
        cases a with
        | none => simp [childStep, hlook2, horig, stripEnv]
        | some fa =>
          have hty : getType (stripEnv env).schema f.typeName =
              Option.map stripTypeDef (getType env.schema f.typeName) :=
            getType_strip env f.typeName
          have hname : (stripTypeDef t).name = t.name := rfl
          have htyf : (stripFieldDef f).typeName = f.typeName := rfl
          simp only [childStep, Option.map_some', hlook2, horig, hopts, hmap,
            hname, htyf]
          rw [hty, hrec]
  | fragSpread name =>
    cases h : alist env.fragments name with
    | none => simp [childStep, h, stripEnv]
    | some frag =>
      have h2 : alist (stripEnv env).fragments name = some frag := h
      simp only [childStep, h, h2]
      rw [getType_strip, hrec]
  | inlineFrag tc sels =>
    cases tc with
    | none => simp only [childStep]; rw [hrec]
    | some tn => simp only [childStep]; rw [getType_strip, hrec]

theorem walkSels_strip (env : Env) (m : List (String × List (String × CostMapEntry)))
    (hmap : env.options.costMap = some m)
    (recur recurS : List Selection → Option TypeDef → List Int → Int × List String)
    (hrec : ∀ s t p, recurS s (Option.map stripTypeDef t) p = recur s t p)
    (sels : List Selection) (td : Option TypeDef) (pm : List Int) :
    walkSels (stripEnv env) recurS sels (Option.map stripTypeDef td) pm =
      walkSels env recur sels td pm := by
  induction sels with
  | nil => rfl
  | cons c cs ih =>
    rw [walkSels_cons, walkSels_cons, ih,
      childStep_strip env m hmap recur recurS hrec td pm c]

theorem computeNodeCost_strip (env : Env)
    (m : List (String × List (String × CostMapEntry)))
    (hmap : env.options.costMap = some m) (fuel : Nat) (sels : List Selection)
    (td : Option TypeDef) (pm : List Int) :
    computeNodeCost (stripEnv env) fuel sels (Option.map stripTypeDef td) pm =
      computeNodeCost env fuel sels td pm := by
  induction fuel generalizing sels td pm with
  | zero => rfl
  | succ f ih =>
    show nodeTotal (walkSels (stripEnv env) (computeNodeCost (stripEnv env) f)
        sels (Option.map stripTypeDef td) pm) =
      nodeTotal (walkSels env (computeNodeCost env f) sels td pm)
    rw [walkSels_strip env m hmap (computeNodeCost env f)
      (computeNodeCost (stripEnv env) f) (fun s t p => ih s t p) sels td pm]

/-- C4 counterexample: with a cost map configured, defaultCost 0 and an
*empty* map entry for `Query.a`, the field contributes 1 (the default
complexity), not the configured default cost — refuting the claim that an
empty entry falls back to `defaultCost`. -/
def emptyEntryEnv : Env where
  options := { maximumCost := 100, costMap := some [("Query", [("a", {})])] }
  schema :=
    { types := [ ("Query", { name := "Query", kind := .object,
                             fields := [("a", { typeName := "Int" })] }),
                 ("Int", { name := "Int", kind := .scalar }) ],
      queryType := some "Query" }

theorem costmap_empty_entry_counterexample :
    (computeNodeCost emptyEntryEnv 2 [ .field "a" (some []) [] ]
        (getType emptyEntryEnv.schema "Query") []).1 = 1 ∧
    emptyEntryEnv.options.defaultCost = 0 ∧
    (computeNodeCost emptyEntryEnv 2 [ .field "a" (some []) [] ]
        (getType emptyEntryEnv.schema "Query") []).1 ≠
      emptyEntryEnv.options.defaultCost := by
  exact ⟨rfl, rfl, by decide⟩

/-- C4 amended: when a cost map is configured, schema-embedded cost
metadata is never consulted (erasing every directive changes nothing); a
field whose map entry is *absent* resolves to no configuration and
contributes the configured default cost; but a field whose map entry is
an *empty object* is priced as a cost configuration with all defaults —
default complexity times the ancestor-chain product — not as
`defaultCost`. -/
theorem costmap_overrides_amended (env : Env) (fuel : Nat)
    (sels : List Selection) (td : Option TypeDef) (pm : List Int)
    (m : List (String × List (String × CostMapEntry)))
    (hmap : env.options.costMap = some m) :
    computeNodeCost (stripEnv env) fuel sels (Option.map stripTypeDef td) pm =
      computeNodeCost env fuel sels td pm ∧
    (∀ pt fname args, lookupEntry m pt fname = none →
      getArgsFromCostMap env.options pt fname args = none) ∧
    (∀ chain, computeCost env.options chain none =
      (env.options.defaultCost, chain, [])) ∧
    (∀ pt fname args chain, env.options.complexityRange = none →
      lookupEntry m pt fname = some {} →
      computeCost env.options chain (getArgsFromCostMap env.options pt fname args) =
        (List.foldl (· * ·) 1 chain, chain, [])) := by
  refine ⟨computeNodeCost_strip env m hmap fuel sels td pm, ?_, fun chain => rfl, ?_⟩
  · intro pt fname args hnone
    simp [getArgsFromCostMap, hmap, hnone]
  · intro pt fname args chain hrange hempty
    have hcfg : getArgsFromCostMap env.options pt fname args =
        some { useMultipliers := none, multiplier := none,
               complexity := none, multipliers := some [] } := by
      simp [getArgsFromCostMap, hmap, hempty, getMultipliersFromString]
    rw [hcfg]
    simp [computeCost, hrange, costWithMultipliers, defaultComplexity]

/-- Closed instance of the amended cost-map theorem, on the environment
with the empty `Query.a` entry. -/
theorem costmap_overrides_amended_witness :
    computeNodeCost (stripEnv emptyEntryEnv) 2 [ .field "a" (some []) [] ]
        (Option.map stripTypeDef (getType emptyEntryEnv.schema "Query")) [] =
      computeNodeCost emptyEntryEnv 2 [ .field "a" (some []) [] ]
        (getType emptyEntryEnv.schema "Query") [] ∧
    (∀ pt fname args, lookupEntry [("Query", [("a", {})])] pt fname = none →
      getArgsFromCostMap emptyEntryEnv.options pt fname args = none) ∧
    (∀ chain, computeCost emptyEntryEnv.options chain none =
      (emptyEntryEnv.options.defaultCost, chain, [])) ∧
    (∀ pt fname args chain, emptyEntryEnv.options.complexityRange = none →
      lookupEntry [("Query", [("a", {})])] pt fname = some {} →
      computeCost emptyEntryEnv.options chain
          (getArgsFromCostMap emptyEntryEnv.options pt fname args) =
        (List.foldl (· * ·) 1 chain, chain, [])) :=
  costmap_overrides_amended emptyEntryEnv 2 [ .field "a" (some []) [] ]
    (getType emptyEntryEnv.schema "Query") [] [("Query", [("a", {})])] rfl
